import Mathlib

/-!
Verification of the `map_generator/terrain.py` core of the `ecosistema`
repository, shallowly embedded in Lean 4.

Conventions of the embedding:
* Python/numpy floats are modelled as rationals (`ℚ`); all the arithmetic
  appearing in the claims (linear remaps, percentile interpolation, rounding
  to one decimal, comparisons against thresholds) is exact rational
  arithmetic.
* 2-D numpy arrays are modelled as row-major `List (List ℚ)`.
* The external Perlin-noise function `pnoise2` (from the `noise` package,
  not part of this repository) is an abstract parameter of type `Noise`,
  applied to exactly the arguments the source passes it.
* The sources of nondeterminism of the source code (`random.randint` base
  offsets, `int(time.time())` offsets, `np.random.rand` desert grid,
  `np.random.randint` draws) are explicit inputs, so every generation
  function is a pure function of its inputs.
-/

namespace Ecosistema

/-- The four seasons used by the temperature and light dictionaries
(in the insertion order of the source). -/
inductive Season where
  | winter
  | spring
  | summer
  | fall
deriving DecidableEq, Repr

instance : Fintype Season :=
  ⟨⟨{Season.winter, Season.spring, Season.summer, Season.fall}, by decide⟩,
    fun s => by cases s <;> decide⟩

/-- Module constant `NORTH_TEMPERATURE = -10` of `terrain.py`. -/
def NORTH_TEMPERATURE : ℚ := -10

/-- Module constant `SOUTH_TEMPERATURE = 30` of `terrain.py`. -/
def SOUTH_TEMPERATURE : ℚ := 30

/-- Module constant `WIDTH = 100` of `terrain.py`. -/
def WIDTH : ℕ := 100

/-- Module constant `HEIGHT = 100` of `terrain.py`. -/
def HEIGHT : ℕ := 100

/-- The abstract type of the external `pnoise2` function: arguments are
`x`, `y`, `octaves`, `persistence`, `lacunarity`, `repeatx`, `repeaty`,
in the order the source passes them. -/
def Noise : Type := ℚ → ℚ → ℕ → ℚ → ℚ → ℕ → ℕ → ℚ

/-- Round-half-to-even to an integer (the rounding mode of `np.round`). -/
def roundHalfEven (x : ℚ) : ℤ :=
  if x - Int.floor x < 1/2 then Int.floor x
  else if 1/2 < x - Int.floor x then Int.floor x + 1
  else if 2 ∣ Int.floor x then Int.floor x else Int.floor x + 1

/-- `np.round(x, 1)`: round to one decimal place, ties to even. -/
def round1 (x : ℚ) : ℚ := (roundHalfEven (10 * x) : ℚ) / 10

/-- `np.linspace a b num` evaluated at index `i`
(for `num = 1` numpy yields the singleton `[a]`). -/
def linspace (a b : ℚ) (num : ℕ) (i : ℕ) : ℚ :=
  if num ≤ 1 then a else a + (b - a) * i / ((num : ℚ) - 1)

/-- Row-major flattening of a 2-D grid. -/
def flat2 : List (List ℚ) → List ℚ
  | [] => []
  | r :: rs => r ++ flat2 rs

/-- The linear-interpolation percentile kernel: given the ascending sorted
sample list `s` and the fractional order statistic `h`, return
`s[⌊h⌋] + (h - ⌊h⌋) * (s[⌊h⌋+1] - s[⌊h⌋])` (clamping the upper index). -/
def pcore (s : List ℚ) (h : ℚ) : ℚ :=
  s.getD (Int.floor h).toNat 0
    + (h - Int.floor h) *
        (s.getD ((Int.floor h).toNat + 1) (s.getD (Int.floor h).toNat 0)
          - s.getD (Int.floor h).toNat 0)

/-- `np.percentile xs q` with the default linear interpolation method. -/
def percentile (xs : List ℚ) (q : ℚ) : ℚ :=
  pcore (List.insertionSort (· ≤ ·) xs) (((xs.length : ℚ) - 1) * q / 100)

/-- Configuration parameters of `generate_height_map` (its keyword
arguments, with the source defaults recorded in
`default_height_config`). -/
structure HeightConfig where
  scale : ℚ
  octaves : ℕ
  persistence : ℚ
  lacunarity : ℚ
  min_alt : ℚ
  max_alt : ℚ
  sea_percentage : ℚ

/-- The default keyword arguments of `generate_height_map`. -/
def default_height_config : HeightConfig :=
  { scale := 3/100, octaves := 5, persistence := 3/5, lacunarity := 21/10,
    min_alt := -1000, max_alt := 5000, sea_percentage := 2/5 }

/-- The raw (pre sea-level subtraction) height grid: one `pnoise2` sample
per cell, remapped linearly from `[-1, 1]` to `[min_alt, max_alt]`.
`base_x`, `base_y` are the offsets the source draws from
`random.randint(0, 10000)`. -/
def raw_height_map (pn : Noise) (width height : ℕ) (cfg : HeightConfig)
    (base_x base_y : ℕ) : List (List ℚ) :=
  (List.range height).map fun (i : ℕ) =>
    (List.range width).map fun (j : ℕ) =>
      cfg.min_alt + (cfg.max_alt - cfg.min_alt) *
        (pn (((i : ℕ) + base_x : ℕ) * cfg.scale) (((j : ℕ) + base_y : ℕ) * cfg.scale)
          cfg.octaves cfg.persistence cfg.lacunarity width height + 1) / 2

/-- `generate_height_map`: builds the raw grid, computes the sea level as
the `sea_percentage * 100` percentile of all samples, and subtracts it
from every cell.  Returns `(height_map, sea_level)`. -/
def generate_height_map (pn : Noise) (width height : ℕ) (cfg : HeightConfig)
    (base_x base_y : ℕ) : List (List ℚ) × ℚ :=
  let hm := raw_height_map pn width height cfg base_x base_y
  let sea := percentile (flat2 hm) (cfg.sea_percentage * 100)
  (hm.map fun row => row.map fun v => v - sea, sea)

/-- The per-season temperature shifts of `generate_temperature_map`. -/
def season_shift : Season → ℚ
  | .winter => -15
  | .spring => 0
  | .summer => 15
  | .fall => 0

/-- The unrounded per-cell temperature:
latitude interpolation plus season shift minus `0.005 * elevation`. -/
def temp_cell_raw (north south : ℚ) (rows : ℕ) (s : Season) (i : ℕ) (e : ℚ) : ℚ :=
  linspace north south rows i + season_shift s - (5/1000) * e

/-- `generate_temperature_map` for one season: `lat_range[:, None] +
temp_shift - 0.005 * height_map`, rounded to one decimal place.
(The unused `latitude_factor` parameter of the source is omitted.) -/
def generate_temperature_map (north south : ℚ) (hm : List (List ℚ))
    (s : Season) : List (List ℚ) :=
  (List.range hm.length).map fun i =>
    (List.range ((hm.getD i []).length)).map fun j =>
      round1 (temp_cell_raw north south hm.length s i ((hm.getD i []).getD j 0))

/-- The value of cell `(i, j)` of a `generate_water_features` grid:
`pnoise2((i + t) * scale, (j + t) * scale, octaves=6)` where
`t = int(time.time()) % 1000` and the remaining `pnoise2` arguments are
the library defaults (`persistence=0.5`, `lacunarity=2.0`,
`repeatx=repeaty=1024`). -/
def water_noise (pn : Noise) (scale : ℚ) (t : ℕ) (i j : ℕ) : ℚ :=
  pn (((i : ℚ) + t % 1000) * scale) (((j : ℚ) + t % 1000) * scale) 6 (1/2) 2 1024 1024

/-- The per-cell semantics of the sequence of masked assignments of
`generate_water_presence_map` (each later rule overwrites the earlier
ones on the cells it matches).  `vDraw` is the single
`np.random.randint(15, 26)` scalar of the valley rule and `dDraw` the
single `np.random.randint(5, 16)` scalar of the desert rule. -/
def water_presence_cell (h sea lake river desert vDraw dDraw : ℚ) : ℚ :=
  let w0 : ℚ := 0
  let w1 := if h ≤ sea then 100 else w0
  let w2 := if sea < h ∧ h ≤ sea + 50 then 80 else w1
  let w3 := if sea + 50 < h ∧ h ≤ sea + 100 then 95 else w2
  let w4 := if river > 3/20 ∧ sea < h ∧ h ≤ sea + 100 then 80 else w3
  let w5 := if lake > 1/4 ∧ sea < h ∧ h ≤ sea + 100 then 100 else w4
  let w6 := if sea < h ∧ desert ≤ 9/10 then vDraw else w5
  let w7 := if sea + 2300 < h ∧ (9/10) * (8/10) < desert then dDraw else w6
  w7

/-- `generate_water_presence_map`, cell-level model: each cell of the
height grid is classified by `water_presence_cell`, with the lake noise
sampled at scale `0.05`, the river noise at scale `0.02`, and `desert`
the `np.random.rand` grid.  (This is the value-level semantics of the
masked-assignment code on square grids; the shape behaviour, including
the transposed construction of the noise grids, is modelled separately
by `generate_water_presence_map_shape`.) -/
def generate_water_presence_map (pn : Noise) (hm : List (List ℚ)) (sea : ℚ)
    (t1 t2 : ℕ) (desert : ℕ → ℕ → ℚ) (vDraw dDraw : ℚ) : List (List ℚ) :=
  (List.range hm.length).map fun i =>
    (List.range ((hm.getD i []).length)).map fun j =>
      water_presence_cell ((hm.getD i []).getD j 0) sea
        (water_noise pn (1/20) t1 i j) (water_noise pn (1/50) t2 i j)
        (desert i j) vDraw dDraw

/-- The per-season daylight hours of `generate_light_map`. -/
def light_hours : Season → ℚ
  | .winter => 8
  | .spring => 12
  | .summer => 16
  | .fall => 12

/-- `generate_light_map` for one season: `np.full((HEIGHT, WIDTH), hours)`,
a constant grid of the module dimensions. -/
def generate_light_map (W H : ℕ) (s : Season) : List (List ℚ) :=
  (List.range H).map fun _ => (List.range W).map fun _ => light_hours s

/-- All the inputs of one `generate_comprehensive_map` run: the external
noise function, the module dimension constants, and every random draw the
source makes (height-map base offsets, the two `time.time()` offsets of the
water-feature grids, the desert grid, and the two `randint` scalars). -/
structure Inputs where
  pn : Noise
  W : ℕ
  H : ℕ
  base_x : ℕ
  base_y : ℕ
  t1 : ℕ
  t2 : ℕ
  desert : ℕ → ℕ → ℚ
  vDraw : ℚ
  dDraw : ℚ

/-- The aggregate result of `generate_comprehensive_map`. -/
structure ComprehensiveMap where
  height : List (List ℚ)
  temperature : Season → List (List ℚ)
  water : List (List ℚ)
  light : Season → List (List ℚ)

/-- `generate_comprehensive_map`: height map (with the default keyword
configuration), temperature maps, water-presence map (called with the
default `sea_level = 0`, the grid being already normalized), light maps. -/
def generate_comprehensive_map (inp : Inputs) : ComprehensiveMap :=
  let hs := generate_height_map inp.pn inp.W inp.H default_height_config
      inp.base_x inp.base_y
  { height := hs.1
    temperature := generate_temperature_map NORTH_TEMPERATURE SOUTH_TEMPERATURE hs.1
    water := generate_water_presence_map inp.pn hs.1 0 inp.t1 inp.t2
      inp.desert inp.vDraw inp.dDraw
    light := generate_light_map inp.W inp.H }

/-- Python/numpy index wrapping: a negative index counts from the end. -/
def wrapIdx (i : ℤ) (n : ℕ) : ℤ := if i < 0 then i + n else i

/-- Numpy single-axis integer indexing: negative indices count from the
end; an index outside `[-len, len)` raises `IndexError`. -/
def npidx {α : Type} [Inhabited α] (l : List α) (i : ℤ) : Except String α :=
  if 0 ≤ wrapIdx i l.length ∧ wrapIdx i l.length < (l.length : ℤ) then
    Except.ok (l.getD (wrapIdx i l.length).toNat default)
  else Except.error "IndexError"

/-- Numpy 2-D indexing `g[y, x]` on a row-major grid. -/
def npGet2 (g : List (List ℚ)) (y x : ℤ) : Except String ℚ :=
  Except.bind (npidx g y) fun row => npidx row x

/-- The record returned by `get_terrain_info`. -/
structure TerrainInfo where
  height : ℚ
  water : ℚ
  light : Season → ℚ
  temperature : Season → ℚ

/-- `get_terrain_info`: reads `height[y, x]`, `water_presence[y, x]` and
the per-season light and temperature values at `[y, x]`, with numpy
indexing (no bounds check of its own: out-of-range indices surface as
numpy `IndexError`s, negative in-range indices wrap). -/
def get_terrain_info (cm : ComprehensiveMap) (x y : ℤ) : Except String TerrainInfo :=
  Except.bind (npGet2 cm.height y x) fun h =>
  Except.bind (npGet2 cm.water y x) fun w =>
  Except.bind (npGet2 (cm.light .winter) y x) fun lw =>
  Except.bind (npGet2 (cm.light .spring) y x) fun lsp =>
  Except.bind (npGet2 (cm.light .summer) y x) fun lsu =>
  Except.bind (npGet2 (cm.light .fall) y x) fun lf =>
  Except.bind (npGet2 (cm.temperature .winter) y x) fun tw =>
  Except.bind (npGet2 (cm.temperature .spring) y x) fun tsp =>
  Except.bind (npGet2 (cm.temperature .summer) y x) fun tsu =>
  Except.bind (npGet2 (cm.temperature .fall) y x) fun tf =>
  Except.ok
    { height := h, water := w
      light := fun s => match s with
        | .winter => lw | .spring => lsp | .summer => lsu | .fall => lf
      temperature := fun s => match s with
        | .winter => tw | .spring => tsp | .summer => tsu | .fall => tf }

/-- Whether an `Except` value is a success. -/
def okb {α : Type} : Except String α → Bool
  | .ok _ => true
  | .error _ => false

/-! ### Shape-level model of `generate_water_presence_map`

The source unpacks `width, height = height_map.shape`, although the numpy
shape is `(rows, cols)`; the noise and desert grids are then constructed
with shape `(height, width) = (cols, rows)`.  The following model tracks
only array shapes, with numpy broadcasting for `&` of boolean masks and
the shape-equality requirement of boolean-mask assignment. -/

/-- Numpy broadcasting compatibility of one axis pair. -/
def np_axis_compat (a b : ℕ) : Prop := a = b ∨ a = 1 ∨ b = 1

instance (a b : ℕ) : Decidable (np_axis_compat a b) := by
  unfold np_axis_compat; infer_instance

/-- The broadcast result of one axis pair (meaningful under
`np_axis_compat`). -/
def np_axis_dim (a b : ℕ) : ℕ := if a = 1 then b else a

/-- Elementwise `&` of two 2-D boolean masks: broadcasts the shapes or
raises. -/
def np_and_shape (s t : ℕ × ℕ) : Except String (ℕ × ℕ) :=
  if np_axis_compat s.1 t.1 ∧ np_axis_compat s.2 t.2 then
    Except.ok (np_axis_dim s.1 t.1, np_axis_dim s.2 t.2)
  else Except.error "broadcast mismatch"

/-- Boolean-mask assignment `target[mask] = v`: the mask shape must equal
the target shape. -/
def np_mask_assign (target mask : ℕ × ℕ) : Except String Unit :=
  if mask = target then Except.ok () else Except.error "IndexError"

/-- The shape of a `generate_water_features(width, height, ...)` grid:
`np.zeros((height, width))`. -/
def generate_water_features_shape (width height : ℕ) : ℕ × ℕ := (height, width)

/-- Shape-level model of `generate_water_presence_map` on a height map of
shape `(rows, cols)`: the source binds `width := rows`, `height := cols`
(transposed), builds the lake/river/desert grids with shape
`(cols, rows)`, and performs the seven masked assignments in order. -/
def generate_water_presence_map_shape (rows cols : ℕ) : Except String (ℕ × ℕ) :=
  let wps := (rows, cols)
  let lake := generate_water_features_shape rows cols
  let river := generate_water_features_shape rows cols
  let hmask := (rows, cols)
  Except.bind (np_mask_assign wps hmask) fun _ =>
  Except.bind (np_mask_assign wps hmask) fun _ =>
  Except.bind (np_mask_assign wps hmask) fun _ =>
  Except.bind (np_and_shape river hmask) fun m4a =>
  Except.bind (np_and_shape m4a hmask) fun m4 =>
  Except.bind (np_mask_assign wps m4) fun _ =>
  Except.bind (np_and_shape lake hmask) fun m5a =>
  Except.bind (np_and_shape m5a hmask) fun m5 =>
  Except.bind (np_mask_assign wps m5) fun _ =>
  let desert := (cols, rows)
  Except.bind (np_and_shape hmask desert) fun m6 =>
  Except.bind (np_mask_assign wps m6) fun _ =>
  Except.bind (np_and_shape hmask desert) fun m7 =>
  Except.bind (np_mask_assign wps m7) fun _ =>
  Except.ok wps

/-! ### Generic helper lemmas -/

/-- Reading a grid built with `(List.range n).map f` at an in-bounds
index gives `f i`. -/
theorem getD_range_map {α : Type} (f : ℕ → α) (n i : ℕ) (d : α) (h : i < n) :
    (((List.range n).map f).getD i d) = f i := by
  rw [List.getD_eq_getElem _ _ (by simpa using h), List.getElem_map, List.getElem_range]

/-- `gridDims g r c`: the grid has `r` rows, each of length `c`. -/
def gridDims (g : List (List ℚ)) (r c : ℕ) : Prop :=
  g.length = r ∧ ∀ row ∈ g, row.length = c

instance (g : List (List ℚ)) (r c : ℕ) : Decidable (gridDims g r c) := by
  unfold gridDims; infer_instance

theorem gridDims_range_map (f : ℕ → List ℚ) (r c : ℕ)
    (h : ∀ i < r, (f i).length = c) :
    gridDims ((List.range r).map f) r c := by
  refine ⟨by simp, fun row hrow => ?_⟩
  simp only [List.mem_map, List.mem_range] at hrow
  obtain ⟨i, hi, rfl⟩ := hrow
  exact h i hi

theorem flat2_length (g : List (List ℚ)) (c : ℕ)
    (h : ∀ row ∈ g, row.length = c) : (flat2 g).length = g.length * c := by
  induction g with
  | nil => simp [flat2]
  | cons r rs ih =>
      simp only [flat2, List.length_append, List.length_cons]
      rw [h r (by simp), ih (fun row hrow => h row (by simp [hrow]))]
      ring

theorem flat2_map (f : ℚ → ℚ) (g : List (List ℚ)) :
    flat2 (g.map fun row => row.map f) = (flat2 g).map f := by
  induction g with
  | nil => simp [flat2]
  | cons r rs ih => simp [flat2, ih]

/-! ### Concrete example inputs (used by the witness theorems) -/

/-- A concrete stand-in for the external `pnoise2` function. -/
def pnEx : Noise := fun x y _ _ _ _ _ => x + y

/-- A concrete, fully explicit set of generation inputs on a 2×2 grid. -/
def inputsEx : Inputs :=
  { pn := pnEx, W := 2, H := 2, base_x := 0, base_y := 0, t1 := 0, t2 := 0,
    desert := fun _ _ => 1/2, vDraw := 20, dDraw := 7 }

/-! ### C1: determinism -/

/-- **C1**: for every fixed seed/offset assignment and configuration, two
independent full generation runs produce bit-for-bit identical grids: once
the random draws of the source (`random.randint` offsets, `time.time()`
offsets, the desert grid, the two `randint` scalars) and the noise
function are fixed, `generate_comprehensive_map` is a pure function of
those inputs, so two runs on equal inputs agree on every layer. -/
theorem generation_is_deterministic (a b : Inputs) (h : a = b) :
    generate_comprehensive_map a = generate_comprehensive_map b := by rw [h]

/-- Witness for C1 at a concrete input. -/
theorem generation_is_deterministic_instance :
    inputsEx = inputsEx ∧
    generate_comprehensive_map inputsEx = generate_comprehensive_map inputsEx :=
  ⟨rfl, generation_is_deterministic inputsEx inputsEx rfl⟩

/-! ### C10: the shape transposition -/

/-- **C10**: `generate_water_presence_map` unpacks the elevation shape
`(rows, cols)` as `(width, height)`, so the lake and river noise grids
(and the desert grid) are built with transposed shape `(cols, rows)`;
consequently the masked combination succeeds exactly on square elevation
grids, and every non-square grid fails with a shape mismatch (either at
broadcasting of `&` or at the boolean-mask assignment). -/
theorem water_presence_square_only (rows cols : ℕ) :
    generate_water_features_shape rows cols = (cols, rows)
    ∧ (okb (generate_water_presence_map_shape rows cols) = true ↔ rows = cols) := by
  refine ⟨rfl, ?_⟩
  rcases eq_or_ne rows cols with heq | hne
  · subst heq
    simp [generate_water_presence_map_shape, generate_water_features_shape,
      np_mask_assign, np_and_shape, np_axis_compat, np_axis_dim, Except.bind, okb]
  · have hne2 : cols ≠ rows := Ne.symm hne
    rcases eq_or_ne rows 1 with h1 | h1
    · subst h1
      simp [generate_water_presence_map_shape, generate_water_features_shape,
        np_mask_assign, np_and_shape, np_axis_compat, np_axis_dim, Except.bind, okb,
        hne, hne2]
    · rcases eq_or_ne cols 1 with h2 | h2
      · subst h2
        simp [generate_water_presence_map_shape, generate_water_features_shape,
          np_mask_assign, np_and_shape, np_axis_compat, np_axis_dim, Except.bind, okb,
          hne, hne2, h1]
      · simp [generate_water_presence_map_shape, generate_water_features_shape,
          np_mask_assign, np_and_shape, np_axis_compat, np_axis_dim, Except.bind, okb,
          hne, hne2, h1, h2]

/-- Witness for C10 at concrete sizes: the water features grid for a 2×3
height map is transposed, and the shape pipeline's success criterion
rejects 2×3. -/
theorem water_presence_square_only_instance :
    generate_water_features_shape 2 3 = (3, 2)
    ∧ (okb (generate_water_presence_map_shape 2 3) = true ↔ 2 = 3) :=
  water_presence_square_only 2 3

/-! ### C3: the temperature formula -/

/-- The latitude base of the spec's words: linear interpolation from the
north temperature at row 0 to the south temperature at the last row
(row index divided by `rows - 1`).  Compared below against the
`np.linspace` row values the code uses. -/
def lat_base_spec (north south : ℚ) (rows : ℕ) (r : ℕ) : ℚ :=
  north + (south - north) * r / ((rows : ℚ) - 1)

/-- The conclusion of claim C3 at one cell: the stored temperature equals
`lat_base(row) + season_shift(season) - 0.005 * elevation` rounded to one
decimal, where `lat_base` interpolates from `north` at row 0 to `south`
at the last row, and the season shifts are winter −15, summer +15,
spring/fall 0. -/
def temp_formula_prop (north south : ℚ) (hm : List (List ℚ)) (s : Season)
    (i j : ℕ) : Prop :=
  ((generate_temperature_map north south hm s).getD i []).getD j 0
      = round1 (lat_base_spec north south hm.length i + season_shift s
          - (5/1000) * ((hm.getD i []).getD j 0))
    ∧ lat_base_spec north south hm.length 0 = north
    ∧ lat_base_spec north south hm.length (hm.length - 1) = south
    ∧ season_shift .winter = -15 ∧ season_shift .summer = 15
    ∧ season_shift .spring = 0 ∧ season_shift .fall = 0

/-- **C3**: every cell of every per-season temperature grid equals
`lat_base(row) + season_shift(season) - 0.005 * elevation[row, col]`
rounded to one decimal place, with `lat_base` the linear interpolation
from the configured north temperature (row 0) to the south temperature
(last row), for grids with at least two rows. -/
theorem temperature_formula_correct (north south : ℚ) (hm : List (List ℚ))
    (s : Season) (i j : ℕ) (h2 : 2 ≤ hm.length)
    (hi : i < hm.length) (hj : j < (hm.getD i []).length) :
    temp_formula_prop north south hm s i j := by
  have hlen1 : (1 : ℚ) ≤ (hm.length : ℚ) := by exact_mod_cast Nat.one_le_of_lt h2
  have hne : ((hm.length : ℚ) - 1) ≠ 0 := by
    have : (2 : ℚ) ≤ (hm.length : ℚ) := by exact_mod_cast h2
    intro hcontra
    nlinarith
  refine ⟨?_, ?_, ?_, rfl, rfl, rfl, rfl⟩
  · unfold generate_temperature_map
    rw [getD_range_map _ _ _ _ hi, getD_range_map _ _ _ _ hj]
    unfold temp_cell_raw linspace lat_base_spec
    rw [if_neg (by omega)]
  · simp [lat_base_spec]
  · unfold lat_base_spec
    have hcast : ((hm.length - 1 : ℕ) : ℚ) = (hm.length : ℚ) - 1 := by
      have : 1 ≤ hm.length := by omega
      push_cast [this]
      ring
    rw [hcast]
    field_simp

/-- Witness for C3: the concrete two-row grid `[[0], [100]]` with the
module north/south temperatures, season spring, cell (0, 0). -/
theorem temperature_formula_instance :
    2 ≤ ([[0], [100]] : List (List ℚ)).length
    ∧ 0 < ([[0], [100]] : List (List ℚ)).length
    ∧ 0 < (([[0], [100]] : List (List ℚ)).getD 0 []).length
    ∧ temp_formula_prop (-10) 30 [[0], [100]] Season.spring 0 0 :=
  ⟨by norm_num, by norm_num, by norm_num,
    temperature_formula_correct (-10) 30 [[0], [100]] Season.spring 0 0
      (by norm_num) (by norm_num) (by norm_num)⟩

/-! ### C4, C5, C6: the water-presence rules -/

/-- The rule-6 (valley) mask condition of the source:
`height > sea_level` and `desert <= valley_threshold`. -/
def rule6_cond (sea h desert : ℚ) : Prop := sea < h ∧ desert ≤ 9/10

/-- The rule-7 (desert) mask condition of the source:
`height > sea_level + 2300` and `desert > valley_threshold * 0.8`. -/
def rule7_cond (sea h desert : ℚ) : Prop := sea + 2300 < h ∧ (9/10) * (8/10) < desert

/-- A cell whose final value comes from rule 6: it matches rule 6 and not
the overwriting rule 7. -/
def rule6_final (sea h desert : ℚ) : Prop :=
  rule6_cond sea h desert ∧ ¬ rule7_cond sea h desert

/-- Reading the water-presence grid at an in-bounds cell gives the
per-cell classification of that cell's height. -/
theorem water_map_cell (pn : Noise) (hm : List (List ℚ)) (sea : ℚ) (t1 t2 : ℕ)
    (desert : ℕ → ℕ → ℚ) (v d : ℚ) (i j : ℕ) (hi : i < hm.length)
    (hj : j < (hm.getD i []).length) :
    ((generate_water_presence_map pn hm sea t1 t2 desert v d).getD i []).getD j 0
      = water_presence_cell ((hm.getD i []).getD j 0) sea
          (water_noise pn (1/20) t1 i j) (water_noise pn (1/50) t2 i j)
          (desert i j) v d := by
  unfold generate_water_presence_map
  rw [getD_range_map _ _ _ _ hi, getD_range_map _ _ _ _ hj]

/-- A cell matching rule 7 ends with the desert draw. -/
theorem cell_eq_ddraw (h sea lake river desert v d : ℚ)
    (h7 : rule7_cond sea h desert) :
    water_presence_cell h sea lake river desert v d = d := by
  unfold rule7_cond at h7
  simp only [water_presence_cell]
  rw [if_pos h7]

/-- A cell matching rule 6 but not rule 7 ends with the valley draw. -/
theorem cell_eq_vdraw (h sea lake river desert v d : ℚ)
    (h6 : rule6_cond sea h desert) (h7 : ¬ rule7_cond sea h desert) :
    water_presence_cell h sea lake river desert v d = v := by
  unfold rule7_cond at h7
  unfold rule6_cond at h6
  simp only [water_presence_cell]
  rw [if_neg h7, if_pos h6]

/-- The conclusion of claim C4 at one cell: the final value is the desert
draw, lies in `[5, 15]`, and differs from the valley draw whenever the
two draws differ. -/
def desert_overrides_prop (pn : Noise) (hm : List (List ℚ)) (sea : ℚ)
    (t1 t2 : ℕ) (desert : ℕ → ℕ → ℚ) (v d : ℚ) (i j : ℕ) : Prop :=
  ((generate_water_presence_map pn hm sea t1 t2 desert v d).getD i []).getD j 0 = d
  ∧ 5 ≤ ((generate_water_presence_map pn hm sea t1 t2 desert v d).getD i []).getD j 0
  ∧ ((generate_water_presence_map pn hm sea t1 t2 desert v d).getD i []).getD j 0 ≤ 15
  ∧ (v ≠ d →
      ((generate_water_presence_map pn hm sea t1 t2 desert v d).getD i []).getD j 0 ≠ v)

/-- **C4**: a cell satisfying both the rule-6 valley condition and the
rule-7 desert condition receives the desert draw (a value in `[5, 15]`),
never the valley draw: rule 7 is applied after rule 6 and overwrites it.
The draws are the `randint` scalars, constrained to their source
ranges. -/
theorem desert_overrides_valley (pn : Noise) (hm : List (List ℚ)) (sea : ℚ)
    (t1 t2 : ℕ) (desert : ℕ → ℕ → ℚ) (v d : ℚ)
    (hd1 : 5 ≤ d) (hd2 : d ≤ 15) (i j : ℕ)
    (hi : i < hm.length) (hj : j < (hm.getD i []).length)
    (h6 : rule6_cond sea ((hm.getD i []).getD j 0) (desert i j))
    (h7 : rule7_cond sea ((hm.getD i []).getD j 0) (desert i j)) :
    desert_overrides_prop pn hm sea t1 t2 desert v d i j := by
  have hw := water_map_cell pn hm sea t1 t2 desert v d i j hi hj
  have hcell := cell_eq_ddraw ((hm.getD i []).getD j 0) sea
    (water_noise pn (1/20) t1 i j) (water_noise pn (1/50) t2 i j)
    (desert i j) v d h7
  refine ⟨hw.trans hcell, ?_, ?_, ?_⟩
  · rw [hw, hcell]; exact hd1
  · rw [hw, hcell]; exact hd2
  · intro hne
    rw [hw, hcell]
    exact fun heq => hne heq.symm

/-- Witness for C4: a concrete 2×2 grid whose cell (0, 0) has elevation
3000 above a zero sea level and desert value 0.85, matching both rules. -/
theorem desert_overrides_valley_instance :
    (5 : ℚ) ≤ 7 ∧ (7 : ℚ) ≤ 15
    ∧ 0 < ([[3000, 10], [10, 10]] : List (List ℚ)).length
    ∧ 0 < (([[3000, 10], [10, 10]] : List (List ℚ)).getD 0 []).length
    ∧ rule6_cond 0 ((([[3000, 10], [10, 10]] : List (List ℚ)).getD 0 []).getD 0 0) ((17/20 : ℚ))
    ∧ rule7_cond 0 ((([[3000, 10], [10, 10]] : List (List ℚ)).getD 0 []).getD 0 0) ((17/20 : ℚ))
    ∧ desert_overrides_prop pnEx [[3000, 10], [10, 10]] 0 0 0 (fun _ _ => 17/20) 20 7 0 0 :=
  ⟨by norm_num, by norm_num, by norm_num, by norm_num,
    ⟨by norm_num, by norm_num⟩, ⟨by norm_num, by norm_num⟩,
    desert_overrides_valley pnEx [[3000, 10], [10, 10]] 0 0 0 (fun _ _ => 17/20) 20 7
      (by norm_num) (by norm_num) 0 0 (by norm_num) (by norm_num)
      ⟨by norm_num, by norm_num⟩ ⟨by norm_num, by norm_num⟩⟩

/-- A constant-zero stand-in for `pnoise2` (no lake or river fires). -/
def pn0 : Noise := fun _ _ _ _ _ _ _ => 0

/-- The conclusion of the amended claim C5 for a pair of cells: any two
cells whose final value comes from rule 6 both receive the single shared
valley scalar (hence equal values), and any two cells matching rule 7
both receive the single shared desert scalar. -/
def shared_draw_prop (pn : Noise) (hm : List (List ℚ)) (sea : ℚ)
    (t1 t2 : ℕ) (desert : ℕ → ℕ → ℚ) (v d : ℚ) (i1 j1 i2 j2 : ℕ) : Prop :=
  (rule6_final sea ((hm.getD i1 []).getD j1 0) (desert i1 j1) →
   rule6_final sea ((hm.getD i2 []).getD j2 0) (desert i2 j2) →
    ((generate_water_presence_map pn hm sea t1 t2 desert v d).getD i1 []).getD j1 0 = v
    ∧ ((generate_water_presence_map pn hm sea t1 t2 desert v d).getD i2 []).getD j2 0 = v
    ∧ ((generate_water_presence_map pn hm sea t1 t2 desert v d).getD i1 []).getD j1 0
      = ((generate_water_presence_map pn hm sea t1 t2 desert v d).getD i2 []).getD j2 0)
  ∧ (rule7_cond sea ((hm.getD i1 []).getD j1 0) (desert i1 j1) →
     rule7_cond sea ((hm.getD i2 []).getD j2 0) (desert i2 j2) →
    ((generate_water_presence_map pn hm sea t1 t2 desert v d).getD i1 []).getD j1 0 = d
    ∧ ((generate_water_presence_map pn hm sea t1 t2 desert v d).getD i2 []).getD j2 0 = d
    ∧ ((generate_water_presence_map pn hm sea t1 t2 desert v d).getD i1 []).getD j1 0
      = ((generate_water_presence_map pn hm sea t1 t2 desert v d).getD i2 []).getD j2 0)

/-- **C5 (amended)**: the source draws `np.random.randint(15, 26)` once
and assigns that single scalar to every rule-6 cell, and likewise one
`np.random.randint(5, 16)` scalar to every rule-7 cell; distinct
qualifying cells therefore receive the same shared value, not independent
per-cell draws. -/
theorem shared_draw_amended (pn : Noise) (hm : List (List ℚ)) (sea : ℚ)
    (t1 t2 : ℕ) (desert : ℕ → ℕ → ℚ) (v d : ℚ) (i1 j1 i2 j2 : ℕ)
    (hi1 : i1 < hm.length) (hj1 : j1 < (hm.getD i1 []).length)
    (hi2 : i2 < hm.length) (hj2 : j2 < (hm.getD i2 []).length) :
    shared_draw_prop pn hm sea t1 t2 desert v d i1 j1 i2 j2 := by
  constructor
  · intro h1 h2
    have e1 := (water_map_cell pn hm sea t1 t2 desert v d i1 j1 hi1 hj1).trans
      (cell_eq_vdraw _ _ _ _ _ _ _ h1.1 h1.2)
    have e2 := (water_map_cell pn hm sea t1 t2 desert v d i2 j2 hi2 hj2).trans
      (cell_eq_vdraw _ _ _ _ _ _ _ h2.1 h2.2)
    exact ⟨e1, e2, e1.trans e2.symm⟩
  · intro h1 h2
    have e1 := (water_map_cell pn hm sea t1 t2 desert v d i1 j1 hi1 hj1).trans
      (cell_eq_ddraw _ _ _ _ _ _ _ h1)
    have e2 := (water_map_cell pn hm sea t1 t2 desert v d i2 j2 hi2 hj2).trans
      (cell_eq_ddraw _ _ _ _ _ _ _ h2)
    exact ⟨e1, e2, e1.trans e2.symm⟩

/-- Counterexample to C5 as stated: on the concrete grid
`[[10, 10], [10, 10]]` (sea level 0, desert grid constantly 1/2, no lake
or river), every cell qualifies for rule 6 and is final there, yet no
admissible pair of draw scalars can make two distinct qualifying cells
differ — the code assigns one shared value, so the draws cannot be
independent per cell. -/
theorem independent_draw_cex :
    rule6_final 0 10 (1/2)
    ∧ ¬ ∃ v d : ℚ, (15 ≤ v ∧ v ≤ 25 ∧ 5 ≤ d ∧ d ≤ 15) ∧
      ((generate_water_presence_map pn0 [[10, 10], [10, 10]] 0 0 0
          (fun _ _ => 1/2) v d).getD 0 []).getD 0 0
      ≠ ((generate_water_presence_map pn0 [[10, 10], [10, 10]] 0 0 0
          (fun _ _ => 1/2) v d).getD 0 []).getD 1 0 := by
  constructor
  · exact ⟨⟨by norm_num, by norm_num⟩, fun h7 => by
      have := h7.1
      norm_num at this⟩
  · rintro ⟨v, d, -, hne⟩
    exact hne rfl

/-- Witness for the amended C5 at concrete cells (0,0) and (1,1) of the
grid `[[10, 10], [10, 10]]`. -/
theorem shared_draw_instance :
    0 < ([[10, 10], [10, 10]] : List (List ℚ)).length
    ∧ shared_draw_prop pn0 [[10, 10], [10, 10]] 0 0 0 (fun _ _ => 1/2) 20 7 0 0 1 1 :=
  ⟨by norm_num,
    shared_draw_amended pn0 [[10, 10], [10, 10]] 0 0 0 (fun _ _ => 1/2) 20 7 0 0 1 1
      (by norm_num) (by norm_num) (by norm_num) (by norm_num)⟩

/-- The conclusion of claim C6 at one cell: the water-presence value lies
in `[0, 100]`, and a cell at or below sea level keeps the value 100. -/
def water_range_prop (pn : Noise) (hm : List (List ℚ)) (sea : ℚ) (t1 t2 : ℕ)
    (desert : ℕ → ℕ → ℚ) (v d : ℚ) (i j : ℕ) : Prop :=
  0 ≤ ((generate_water_presence_map pn hm sea t1 t2 desert v d).getD i []).getD j 0
  ∧ ((generate_water_presence_map pn hm sea t1 t2 desert v d).getD i []).getD j 0 ≤ 100
  ∧ ((hm.getD i []).getD j 0 ≤ sea →
      ((generate_water_presence_map pn hm sea t1 t2 desert v d).getD i []).getD j 0 = 100)

/-- **C6**: every water-presence value lies in `[0, 100]` (the possible
values being 0, 80, 95, 100, the valley draw in `[15, 25]` and the desert
draw in `[5, 15]`), and every cell with elevation at or below sea level
has value exactly 100, because rules 2–7 each require elevation strictly
above sea level and therefore never overwrite a sea cell. -/
theorem water_presence_range_sea (pn : Noise) (hm : List (List ℚ)) (sea : ℚ)
    (t1 t2 : ℕ) (desert : ℕ → ℕ → ℚ) (v d : ℚ)
    (hv1 : 15 ≤ v) (hv2 : v ≤ 25) (hd1 : 5 ≤ d) (hd2 : d ≤ 15) (i j : ℕ)
    (hi : i < hm.length) (hj : j < (hm.getD i []).length) :
    water_range_prop pn hm sea t1 t2 desert v d i j := by
  unfold water_range_prop
  rw [water_map_cell pn hm sea t1 t2 desert v d i j hi hj]
  simp only [water_presence_cell]
  split_ifs with c7 c6 c5 c4 c3 c2 c1
  · exact ⟨by linarith, by linarith, fun hle => by linarith [c7.1]⟩
  · exact ⟨by linarith, by linarith, fun hle => by linarith [c6.1]⟩
  · exact ⟨by norm_num, by norm_num, fun _ => rfl⟩
  · exact ⟨by norm_num, by norm_num, fun hle => by linarith [c4.2.1]⟩
  · exact ⟨by norm_num, by norm_num, fun hle => by linarith [c3.1]⟩
  · exact ⟨by norm_num, by norm_num, fun hle => by linarith [c2.1]⟩
  · exact ⟨by norm_num, by norm_num, fun _ => rfl⟩
  · exact ⟨by norm_num, by norm_num, fun hle => absurd hle c1⟩

/-- Witness for C6 at a concrete sea cell of a 2×2 grid. -/
theorem water_presence_range_sea_instance :
    (15 : ℚ) ≤ 20 ∧ (20 : ℚ) ≤ 25 ∧ (5 : ℚ) ≤ 7 ∧ (7 : ℚ) ≤ 15
    ∧ 0 < ([[1, -1], [5, 0]] : List (List ℚ)).length
    ∧ 1 < (([[1, -1], [5, 0]] : List (List ℚ)).getD 0 []).length
    ∧ water_range_prop pnEx [[1, -1], [5, 0]] 0 0 0 (fun _ _ => 1/2) 20 7 0 1 :=
  ⟨by norm_num, by norm_num, by norm_num, by norm_num, by norm_num, by norm_num,
    water_presence_range_sea pnEx [[1, -1], [5, 0]] 0 0 0 (fun _ _ => 1/2) 20 7
      (by norm_num) (by norm_num) (by norm_num) (by norm_num) 0 1
      (by norm_num) (by norm_num)⟩

/-! ### C8: layer dimensions -/

theorem gridDims_map_rows (g : List (List ℚ)) (r c : ℕ) (f : ℚ → ℚ)
    (h : gridDims g r c) : gridDims (g.map fun row => row.map f) r c := by
  refine ⟨by simpa using h.1, fun row hrow => ?_⟩
  simp only [List.mem_map] at hrow
  obtain ⟨row0, h0, rfl⟩ := hrow
  simpa using h.2 row0 h0

theorem gridDims_getD_len (g : List (List ℚ)) (r c i : ℕ) (h : gridDims g r c)
    (hi : i < r) : (g.getD i []).length = c := by
  have hi2 : i < g.length := h.1 ▸ hi
  rw [List.getD_eq_getElem _ _ hi2]
  exact h.2 _ (List.getElem_mem hi2)

/-- Any grid built over the row/column shape of `hm` inherits the
dimensions of `hm`. -/
theorem gridDims_shaped (hm : List (List ℚ)) (r c : ℕ) (h : gridDims hm r c)
    (f : ℕ → ℕ → ℚ) :
    gridDims ((List.range hm.length).map fun i =>
      (List.range ((hm.getD i []).length)).map fun j => f i j) r c := by
  refine ⟨by simp [h.1], fun row hrow => ?_⟩
  simp only [List.mem_map, List.mem_range] at hrow
  obtain ⟨i, hi, rfl⟩ := hrow
  rw [List.length_map, List.length_range, gridDims_getD_len hm r c i h (h.1 ▸ hi)]

theorem gridDims_flat2_len (g : List (List ℚ)) (r c : ℕ) (h : gridDims g r c) :
    (flat2 g).length = r * c := by
  rw [flat2_length g c h.2, h.1]

/-- The height map produced by `generate_height_map` has `height` rows of
`width` entries. -/
theorem height_map_dims (pn : Noise) (width height : ℕ) (cfg : HeightConfig)
    (bx by2 : ℕ) :
    gridDims (generate_height_map pn width height cfg bx by2).1 height width := by
  have h1 : gridDims (raw_height_map pn width height cfg bx by2) height width := by
    unfold raw_height_map
    exact gridDims_range_map _ height width (fun i hi => by simp)
  simp only [generate_height_map]
  exact gridDims_map_rows _ _ _ _ h1

/-- The conclusion of claim C8: every layer of the comprehensive map is an
`H × W` grid (hence has exactly `W * H` cells), sharing the elevation
grid's dimensions. -/
def comp_dims_prop (inp : Inputs) : Prop :=
  gridDims (generate_comprehensive_map inp).height inp.H inp.W
  ∧ gridDims (generate_comprehensive_map inp).water inp.H inp.W
  ∧ (∀ s, gridDims ((generate_comprehensive_map inp).temperature s) inp.H inp.W)
  ∧ (∀ s, gridDims ((generate_comprehensive_map inp).light s) inp.H inp.W)
  ∧ (flat2 (generate_comprehensive_map inp).height).length = inp.W * inp.H
  ∧ (flat2 (generate_comprehensive_map inp).water).length = inp.W * inp.H
  ∧ (∀ s, (flat2 ((generate_comprehensive_map inp).temperature s)).length
      = inp.W * inp.H)
  ∧ (∀ s, (flat2 ((generate_comprehensive_map inp).light s)).length
      = inp.W * inp.H)

/-- **C8**: full-map generation produces grids where every layer
(elevation, water presence, each per-season temperature grid, each
per-season light grid) has exactly `width * height` cells and all layers
share the elevation grid's dimensions.  The hypothesis `H = W` records
that the map-generation pipeline only completes on square dimensions
(see C10); the module configuration is `100 × 100`. -/
theorem layers_share_dims (inp : Inputs) (hsq : inp.H = inp.W) :
    comp_dims_prop inp := by
  have hhd : gridDims (generate_comprehensive_map inp).height inp.H inp.W :=
    height_map_dims inp.pn inp.W inp.H default_height_config inp.base_x inp.base_y
  have hwd : gridDims (generate_comprehensive_map inp).water inp.H inp.W := by
    show gridDims (generate_water_presence_map _ _ _ _ _ _ _ _) inp.H inp.W
    unfold generate_water_presence_map
    exact gridDims_shaped _ inp.H inp.W hhd _
  have htd : ∀ s, gridDims ((generate_comprehensive_map inp).temperature s) inp.H inp.W := by
    intro s
    show gridDims (generate_temperature_map _ _ _ s) inp.H inp.W
    unfold generate_temperature_map
    exact gridDims_shaped _ inp.H inp.W hhd _
  have hld : ∀ s, gridDims ((generate_comprehensive_map inp).light s) inp.H inp.W := by
    intro s
    show gridDims (generate_light_map inp.W inp.H s) inp.H inp.W
    unfold generate_light_map
    exact gridDims_range_map _ inp.H inp.W (fun i hi => by simp)
  refine ⟨hhd, hwd, htd, hld, ?_, ?_, fun s => ?_, fun s => ?_⟩
  · rw [gridDims_flat2_len _ _ _ hhd, Nat.mul_comm]
  · rw [gridDims_flat2_len _ _ _ hwd, Nat.mul_comm]
  · rw [gridDims_flat2_len _ _ _ (htd s), Nat.mul_comm]
  · rw [gridDims_flat2_len _ _ _ (hld s), Nat.mul_comm]

/-- Witness for C8 at the concrete 2×2 inputs. -/
theorem layers_share_dims_instance :
    inputsEx.H = inputsEx.W ∧ comp_dims_prop inputsEx :=
  ⟨rfl, layers_share_dims inputsEx rfl⟩

/-! ### C9: temperature monotonicity -/

theorem roundHalfEven_ge (x : ℚ) : Int.floor x ≤ roundHalfEven x := by
  unfold roundHalfEven
  split_ifs <;> omega

theorem roundHalfEven_le (x : ℚ) : roundHalfEven x ≤ Int.floor x + 1 := by
  unfold roundHalfEven
  split_ifs <;> omega

/-- Round-half-to-even is monotone. -/
theorem roundHalfEven_mono {x y : ℚ} (hxy : x ≤ y) :
    roundHalfEven x ≤ roundHalfEven y := by
  have hf : Int.floor x ≤ Int.floor y := Int.floor_le_floor hxy
  rcases lt_or_eq_of_le hf with hlt | heq
  · calc roundHalfEven x ≤ Int.floor x + 1 := roundHalfEven_le x
      _ ≤ Int.floor y := by omega
      _ ≤ roundHalfEven y := roundHalfEven_ge y
  · unfold roundHalfEven
    rw [← heq]
    split_ifs <;> first | omega | linarith

/-- Rounding to one decimal place is monotone. -/
theorem round1_mono {x y : ℚ} (h : x ≤ y) : round1 x ≤ round1 y := by
  unfold round1
  have h10 : (10 : ℚ) * x ≤ 10 * y := by linarith
  have hz := roundHalfEven_mono h10
  have hc : ((roundHalfEven (10 * x) : ℤ) : ℚ) ≤ ((roundHalfEven (10 * y) : ℤ) : ℚ) := by
    exact_mod_cast hz
  linarith

/-- The conclusion of the amended claim C9: the latitude base strictly
increases with the row index; on a fixed row the unrounded temperature
strictly decreases with elevation, and the stored (rounded) temperature
weakly decreases. -/
def temp_mono_prop (north south : ℚ) (hm : List (List ℚ)) (s : Season)
    (r1 r2 i j1 j2 : ℕ) : Prop :=
  linspace north south hm.length r1 < linspace north south hm.length r2
  ∧ temp_cell_raw north south hm.length s i ((hm.getD i []).getD j2 0)
      < temp_cell_raw north south hm.length s i ((hm.getD i []).getD j1 0)
  ∧ ((generate_temperature_map north south hm s).getD i []).getD j2 0
      ≤ ((generate_temperature_map north south hm s).getD i []).getD j1 0

/-- **C9 (amended)**: with north temperature below south temperature and
at least two rows, the `lat_base` contribution strictly increases with
the row index; holding the row fixed, a higher elevation gives a strictly
smaller temperature before rounding, and a less-or-equal stored value
after the one-decimal rounding (rounding collapses differences below
0.05, so the stored value is only weakly decreasing). -/
theorem temperature_monotonic_amended (north south : ℚ) (hm : List (List ℚ))
    (s : Season) (r1 r2 i j1 j2 : ℕ)
    (hns : north < south) (h2 : 2 ≤ hm.length)
    (hr12 : r1 < r2) (hr2 : r2 < hm.length)
    (hi : i < hm.length) (hj1 : j1 < (hm.getD i []).length)
    (hj2 : j2 < (hm.getD i []).length)
    (he : (hm.getD i []).getD j1 0 < (hm.getD i []).getD j2 0) :
    temp_mono_prop north south hm s r1 r2 i j1 j2 := by
  have hrowsQ : (2 : ℚ) ≤ (hm.length : ℚ) := by exact_mod_cast h2
  have hden : (0 : ℚ) < (hm.length : ℚ) - 1 := by linarith
  refine ⟨?_, ?_, ?_⟩
  · unfold linspace
    rw [if_neg (by omega), if_neg (by omega)]
    have hr12Q : (r1 : ℚ) < (r2 : ℚ) := by exact_mod_cast hr12
    have hmul : (south - north) * r1 < (south - north) * r2 := by
      apply mul_lt_mul_of_pos_left hr12Q
      linarith
    have := (div_lt_div_iff_of_pos_right hden).mpr hmul
    linarith
  · unfold temp_cell_raw
    linarith
  · unfold generate_temperature_map
    rw [getD_range_map _ _ _ _ hi, getD_range_map _ _ _ _ hj1,
      getD_range_map _ _ _ _ hj2]
    apply round1_mono
    unfold temp_cell_raw
    linarith

/-- Witness for the amended C9 on the concrete grid `[[0, 1], [0, 0]]`. -/
theorem temperature_monotonic_instance :
    (-10 : ℚ) < 30 ∧ 2 ≤ ([[0, 1], [0, 0]] : List (List ℚ)).length
    ∧ (0 : ℕ) < 1 ∧ 1 < ([[0, 1], [0, 0]] : List (List ℚ)).length
    ∧ (([[0, 1], [0, 0]] : List (List ℚ)).getD 0 []).getD 0 0
        < (([[0, 1], [0, 0]] : List (List ℚ)).getD 0 []).getD 1 0
    ∧ temp_mono_prop (-10) 30 [[0, 1], [0, 0]] Season.spring 0 1 0 0 1 :=
  ⟨by norm_num, by norm_num, by norm_num, by norm_num, by norm_num,
    temperature_monotonic_amended (-10) 30 [[0, 1], [0, 0]] Season.spring 0 1 0 0 1
      (by norm_num) (by norm_num) (by norm_num) (by norm_num) (by norm_num)
      (by norm_num) (by norm_num) (by norm_num)⟩

/-- Counterexample to C9 as stated: on the grid `[[0, 1], [0, 0]]` the
two cells of row 0 have strictly increasing elevation (0 then 1), yet the
stored spring temperatures are equal (both round to −10.0), so the final
temperature value does not strictly decrease with elevation. -/
theorem rounded_strict_decrease_cex :
    (([[0, 1], [0, 0]] : List (List ℚ)).getD 0 []).getD 0 0
      < (([[0, 1], [0, 0]] : List (List ℚ)).getD 0 []).getD 1 0
    ∧ ((generate_temperature_map (-10) 30 [[0, 1], [0, 0]] Season.spring).getD 0 []).getD 0 0
      = ((generate_temperature_map (-10) 30 [[0, 1], [0, 0]] Season.spring).getD 0 []).getD 1 0 := by
  constructor
  · norm_num
  · have hv1 : ((generate_temperature_map (-10) 30 [[0, 1], [0, 0]]
        Season.spring).getD 0 []).getD 0 0
        = round1 (temp_cell_raw (-10) 30 2 Season.spring 0 0) := by
      unfold generate_temperature_map
      rw [getD_range_map _ _ _ _ (by norm_num), getD_range_map _ _ _ _ (by norm_num)]
      norm_num
    have hv2 : ((generate_temperature_map (-10) 30 [[0, 1], [0, 0]]
        Season.spring).getD 0 []).getD 1 0
        = round1 (temp_cell_raw (-10) 30 2 Season.spring 0 1) := by
      unfold generate_temperature_map
      rw [getD_range_map _ _ _ _ (by norm_num), getD_range_map _ _ _ _ (by norm_num)]
      norm_num
    have c1 : temp_cell_raw (-10) 30 2 Season.spring 0 0 = -10 := by
      unfold temp_cell_raw linspace season_shift
      norm_num
    have c2 : temp_cell_raw (-10) 30 2 Season.spring 0 1 = -2001/200 := by
      unfold temp_cell_raw linspace season_shift
      norm_num
    have r1 : round1 (-10) = -10 := by
      unfold round1 roundHalfEven
      norm_num [Rat.floor_def]
    have r2 : round1 (-2001/200) = -10 := by
      unfold round1 roundHalfEven
      norm_num [Rat.floor_def]
    rw [hv1, hv2, c1, c2, r1, r2]

/-! ### C7: the point query -/

theorem npidx_ok {α : Type} [Inhabited α] (l : List α) (i : ℤ)
    (h1 : -(l.length : ℤ) ≤ i) (h2 : i < (l.length : ℤ)) :
    npidx l i = Except.ok (l.getD (wrapIdx i l.length).toNat default) := by
  have hc : 0 ≤ wrapIdx i l.length ∧ wrapIdx i l.length < (l.length : ℤ) := by
    unfold wrapIdx
    split_ifs <;> omega
  unfold npidx
  rw [if_pos hc]

theorem npidx_err {α : Type} [Inhabited α] (l : List α) (i : ℤ)
    (h : i < -(l.length : ℤ) ∨ (l.length : ℤ) ≤ i) :
    npidx l i = Except.error "IndexError" := by
  have hc : ¬ (0 ≤ wrapIdx i l.length ∧ wrapIdx i l.length < (l.length : ℤ)) := by
    unfold wrapIdx
    split_ifs <;> omega
  unfold npidx
  rw [if_neg hc]

/-- The wrapped row index of an in-range query is an in-bounds `ℕ`. -/
theorem wrapIdx_toNat_lt (i : ℤ) (n : ℕ) (h1 : -(n : ℤ) ≤ i) (h2 : i < (n : ℤ)) :
    (wrapIdx i n).toNat < n := by
  unfold wrapIdx
  split_ifs <;> omega

theorem npGet2_ok (g : List (List ℚ)) (r c : ℕ) (hg : gridDims g r c) (x y : ℤ)
    (hx1 : -(c : ℤ) ≤ x) (hx2 : x < (c : ℤ))
    (hy1 : -(r : ℤ) ≤ y) (hy2 : y < (r : ℤ)) :
    npGet2 g y x
      = Except.ok ((g.getD (wrapIdx y r).toNat []).getD (wrapIdx x c).toNat 0) := by
  have hrow : npidx g y = Except.ok (g.getD (wrapIdx y r).toNat []) := by
    rw [npidx_ok g y (by rw [hg.1]; exact hy1) (by rw [hg.1]; exact hy2), hg.1]
    rfl
  have hlen : (g.getD (wrapIdx y r).toNat []).length = c :=
    gridDims_getD_len g r c _ hg (wrapIdx_toNat_lt y r hy1 hy2)
  unfold npGet2
  rw [hrow]
  show npidx (g.getD (wrapIdx y r).toNat []) x = _
  rw [npidx_ok _ x (by rw [hlen]; exact hx1) (by rw [hlen]; exact hx2), hlen]
  rfl

theorem npGet2_err_y (g : List (List ℚ)) (r c : ℕ) (hg : gridDims g r c) (x y : ℤ)
    (hy : y < -(r : ℤ) ∨ (r : ℤ) ≤ y) :
    npGet2 g y x = Except.error "IndexError" := by
  unfold npGet2
  rw [npidx_err g y (by rw [hg.1]; exact hy)]
  rfl

theorem npGet2_err_x (g : List (List ℚ)) (r c : ℕ) (hg : gridDims g r c) (x y : ℤ)
    (hy1 : -(r : ℤ) ≤ y) (hy2 : y < (r : ℤ))
    (hx : x < -(c : ℤ) ∨ (c : ℤ) ≤ x) :
    npGet2 g y x = Except.error "IndexError" := by
  have hrow : npidx g y = Except.ok (g.getD (wrapIdx y r).toNat []) := by
    rw [npidx_ok g y (by rw [hg.1]; exact hy1) (by rw [hg.1]; exact hy2), hg.1]
    rfl
  have hlen : (g.getD (wrapIdx y r).toNat []).length = c :=
    gridDims_getD_len g r c _ hg (wrapIdx_toNat_lt y r hy1 hy2)
  unfold npGet2
  rw [hrow]
  show npidx (g.getD (wrapIdx y r).toNat []) x = _
  rw [npidx_err _ x (by rw [hlen]; exact hx)]

/-- Uniform dimensions of every layer of a comprehensive map. -/
def cmDims (cm : ComprehensiveMap) (r c : ℕ) : Prop :=
  gridDims cm.height r c ∧ gridDims cm.water r c
  ∧ (∀ s, gridDims (cm.temperature s) r c) ∧ (∀ s, gridDims (cm.light s) r c)

instance (cm : ComprehensiveMap) (r c : ℕ) : Decidable (cmDims cm r c) := by
  unfold cmDims
  infer_instance

/-- The conclusion of the amended claim C7: the query fails exactly when a
coordinate leaves `[-size, size)` (numpy indexing), and any in-range
query — including Python-style negative wrapping — returns the four layer
values of the (wrapped) cell. -/
def point_query_prop (cm : ComprehensiveMap) (r c : ℕ) (x y : ℤ) : Prop :=
  ((x < -(c : ℤ) ∨ (c : ℤ) ≤ x ∨ y < -(r : ℤ) ∨ (r : ℤ) ≤ y) →
      get_terrain_info cm x y = Except.error "IndexError")
  ∧ (-(c : ℤ) ≤ x → x < (c : ℤ) → -(r : ℤ) ≤ y → y < (r : ℤ) →
      get_terrain_info cm x y = Except.ok
        { height := (cm.height.getD (wrapIdx y r).toNat []).getD (wrapIdx x c).toNat 0
          water := (cm.water.getD (wrapIdx y r).toNat []).getD (wrapIdx x c).toNat 0
          light := fun s =>
            ((cm.light s).getD (wrapIdx y r).toNat []).getD (wrapIdx x c).toNat 0
          temperature := fun s =>
            ((cm.temperature s).getD (wrapIdx y r).toNat []).getD (wrapIdx x c).toNat 0 })

/-- **C7 (amended)**: `get_terrain_info` performs raw numpy indexing, so a
query fails (with a numpy `IndexError`) exactly when `x ∉ [-width, width)`
or `y ∉ [-height, height)`; any in-bounds query with `0 ≤ x < width` and
`0 ≤ y < height` returns the elevation, water presence, per-season light
and per-season temperature of that cell, and a negative coordinate in
`[-size, -1]` wraps Python-style instead of failing. -/
theorem point_query_bounds_amended (cm : ComprehensiveMap) (r c : ℕ) (x y : ℤ)
    (hdims : cmDims cm r c) : point_query_prop cm r c x y := by
  obtain ⟨hh, hw, ht, hl⟩ := hdims
  constructor
  · intro hout
    by_cases hy : y < -(r : ℤ) ∨ (r : ℤ) ≤ y
    · rw [get_terrain_info, npGet2_err_y cm.height r c hh x y hy]
      rfl
    · push_neg at hy
      have hx : x < -(c : ℤ) ∨ (c : ℤ) ≤ x := by
        rcases hout with h | h | h | h
        · exact Or.inl h
        · exact Or.inr h
        · exact absurd h (not_lt.mpr hy.1)
        · exact absurd h (not_le.mpr hy.2)
      rw [get_terrain_info, npGet2_err_x cm.height r c hh x y hy.1 hy.2 hx]
      rfl
  · intro hx1 hx2 hy1 hy2
    rw [get_terrain_info,
      npGet2_ok cm.height r c hh x y hx1 hx2 hy1 hy2,
      npGet2_ok cm.water r c hw x y hx1 hx2 hy1 hy2,
      npGet2_ok _ r c (hl .winter) x y hx1 hx2 hy1 hy2,
      npGet2_ok _ r c (hl .spring) x y hx1 hx2 hy1 hy2,
      npGet2_ok _ r c (hl .summer) x y hx1 hx2 hy1 hy2,
      npGet2_ok _ r c (hl .fall) x y hx1 hx2 hy1 hy2,
      npGet2_ok _ r c (ht .winter) x y hx1 hx2 hy1 hy2,
      npGet2_ok _ r c (ht .spring) x y hx1 hx2 hy1 hy2,
      npGet2_ok _ r c (ht .summer) x y hx1 hx2 hy1 hy2,
      npGet2_ok _ r c (ht .fall) x y hx1 hx2 hy1 hy2]
    show Except.ok _ = Except.ok _
    congr 1
    congr 1 <;> funext s <;> cases s <;> rfl

/-- Concrete generation inputs for the point-query counterexample. -/
def inputsC7 : Inputs :=
  { pn := pn0, W := 2, H := 2, base_x := 0, base_y := 0, t1 := 0, t2 := 0,
    desert := fun _ _ => 1, vDraw := 20, dDraw := 7 }

/-- A concrete generated comprehensive map (2×2, constant-zero noise). -/
def cmEx : ComprehensiveMap := generate_comprehensive_map inputsC7

/-- Counterexample to C7 as stated: on the concrete generated map `cmEx`
the query coordinate `x = -1` lies outside `[0, width)`, yet
`get_terrain_info` succeeds (numpy wraps the negative index to the last
column) instead of failing with an out-of-bounds error. -/
theorem point_query_negative_wrap_cex :
    ((-1 : ℤ) < 0 ∨ (2 : ℤ) ≤ -1) ∧ okb (get_terrain_info cmEx (-1) 0) = true :=
  ⟨Or.inl (by norm_num), rfl⟩

/-- Witness for the amended C7 at a concrete literal map and the
wrapped coordinate `x = -1`. -/
theorem point_query_bounds_instance :
    cmDims
      { height := [[1, 2], [3, 4]], temperature := fun _ => [[5, 6], [7, 8]],
        water := [[9, 10], [11, 12]], light := fun _ => [[13, 14], [15, 16]] } 2 2
    ∧ point_query_prop
      { height := [[1, 2], [3, 4]], temperature := fun _ => [[5, 6], [7, 8]],
        water := [[9, 10], [11, 12]], light := fun _ => [[13, 14], [15, 16]] } 2 2 (-1) 0 :=
  ⟨by decide, point_query_bounds_amended _ 2 2 (-1) 0 (by decide)⟩

/-! ### C2: sea-level calibration -/

/-- In a strictly ascending list, if entry `i` is at most `v` and the next
entry (when it exists) exceeds `v`, then exactly `i + 1` entries are at
most `v`. -/
theorem sorted_count_le (v : ℚ) (s : List ℚ) (hs : s.Sorted (· < ·)) :
    ∀ i, i < s.length → s.getD i 0 ≤ v →
    (∀ h2 : i + 1 < s.length, v < s.getD (i + 1) 0) →
    s.countP (fun x => decide (x ≤ v)) = i + 1 := by
  induction s with
  | nil => intro i hi; simp at hi
  | cons a t ih =>
    intro i hi hlo hhi
    obtain ⟨hat, hts⟩ := List.sorted_cons.mp hs
    rw [List.countP_cons]
    cases i with
    | zero =>
      have ha : a ≤ v := by simpa using hlo
      have hvt : ∀ b ∈ t, v < b := by
        cases t with
        | nil => intro b hb; cases hb
        | cons c u =>
          intro b hb
          have hvc : v < c := by simpa using hhi (by simp)
          obtain ⟨hcu, _⟩ := List.sorted_cons.mp hts
          rcases List.mem_cons.mp hb with rfl | hbu
          · exact hvc
          · exact lt_trans hvc (hcu b hbu)
      have ht0 : t.countP (fun x => decide (x ≤ v)) = 0 :=
        List.countP_eq_zero.mpr fun b hb => by
          simpa using not_le.mpr (hvt b hb)
      simp [ht0, ha]
    | succ k =>
      have hk : k < t.length := by simpa using hi
      have hlo2 : t.getD k 0 ≤ v := by simpa [List.getD_cons_succ] using hlo
      have hmem : t.getD k 0 ∈ t := by
        rw [List.getD_eq_getElem _ _ hk]
        exact List.getElem_mem hk
      have ha : a ≤ v := le_of_lt (lt_of_lt_of_le (hat _ hmem) hlo2)
      have hhi2 : ∀ h2 : k + 1 < t.length, v < t.getD (k + 1) 0 := by
        intro h2
        simpa [List.getD_cons_succ] using hhi (by simpa using Nat.succ_lt_succ h2)
      rw [ih hts k hk hlo2 hhi2]
      simp [ha]

/-- Strictly ascending entries at increasing in-bounds indices. -/
theorem sorted_getD_lt (s : List ℚ) (hs : s.Sorted (· < ·)) (i j : ℕ)
    (hi : i < s.length) (hj : j < s.length) (hij : i < j) :
    s.getD i 0 < s.getD j 0 := by
  rw [List.getD_eq_getElem _ _ hi, List.getD_eq_getElem _ _ hj]
  exact List.pairwise_iff_get.mp hs ⟨i, hi⟩ ⟨j, hj⟩ hij

/-- Counting characterization of the percentile kernel on a strictly
ascending sample list: exactly `⌊h⌋ + 1` samples are at most
`pcore s h`. -/
theorem pcore_count (s : List ℚ) (h : ℚ) (hs : s.Sorted (· < ·))
    (hh0 : 0 ≤ h) (hh1 : h ≤ (s.length : ℚ) - 1) :
    s.countP (fun x => decide (x ≤ pcore s h)) = (Int.floor h).toNat + 1 := by
  have hfl0 : 0 ≤ Int.floor h := Int.floor_nonneg.mpr hh0
  have hiq : ((Int.floor h).toNat : ℚ) = (Int.floor h : ℚ) := by
    exact_mod_cast Int.toNat_of_nonneg hfl0
  have hil : ((Int.floor h).toNat : ℚ) ≤ h := by
    rw [hiq]; exact Int.floor_le h
  have hiu : h < ((Int.floor h).toNat : ℚ) + 1 := by
    rw [hiq]; exact Int.lt_floor_add_one h
  have hi_lt : (Int.floor h).toNat < s.length := by
    have hq : ((Int.floor h).toNat : ℚ) < (s.length : ℚ) := by linarith
    exact_mod_cast hq
  rcases eq_or_lt_of_le (Int.floor_le h) with heq | hlt
  · have hpc : pcore s h = s.getD (Int.floor h).toNat 0 := by
      unfold pcore
      have hz : h - (Int.floor h : ℚ) = 0 := by linarith
      rw [hz, zero_mul, add_zero]
    rw [hpc]
    refine sorted_count_le _ s hs _ hi_lt (le_refl _) fun h2 => ?_
    exact sorted_getD_lt s hs _ _ hi_lt h2 (Nat.lt_succ_self _)
  · have hlen1 : 1 ≤ s.length := by
      by_contra hcon
      have h0 : s.length = 0 := by omega
      rw [h0] at hh1
      norm_num at hh1
      linarith
    have hi1_lt : (Int.floor h).toNat + 1 < s.length := by
      rcases eq_or_lt_of_le hh1 with heq1 | hlt1
      · exfalso
        have hfloor : Int.floor h = (s.length : ℤ) - 1 := by
          rw [heq1, show ((s.length : ℚ) - 1) = (((s.length : ℤ) - 1 : ℤ) : ℚ) by
            push_cast; ring, Int.floor_intCast]
        have : (Int.floor h : ℚ) = h := by
          rw [hfloor, heq1]; push_cast; ring
        linarith
      · have hq : ((Int.floor h).toNat : ℚ) + 1 < (s.length : ℚ) := by linarith
        exact_mod_cast hq
    have hdef : s.getD ((Int.floor h).toNat + 1) (s.getD (Int.floor h).toNat 0)
        = s.getD ((Int.floor h).toNat + 1) 0 := by
      rw [List.getD_eq_getElem _ _ hi1_lt, List.getD_eq_getElem _ _ hi1_lt]
    have hlohi : s.getD (Int.floor h).toNat 0 < s.getD ((Int.floor h).toNat + 1) 0 :=
      sorted_getD_lt s hs _ _ hi_lt hi1_lt (Nat.lt_succ_self _)
    have hg0 : 0 < h - (Int.floor h : ℚ) := by
      have := hiq
      linarith
    have hg1 : h - (Int.floor h : ℚ) < 1 := by linarith
    have hlo : s.getD (Int.floor h).toNat 0 ≤ pcore s h := by
      unfold pcore
      nlinarith [hlohi, hg0, hdef]
    have hhi : pcore s h < s.getD ((Int.floor h).toNat + 1) 0 := by
      unfold pcore
      rw [hdef]
      nlinarith [hlohi, hg0, hg1]
    refine sorted_count_le _ s hs _ hi_lt hlo fun h2 => hhi

/-- Sea-level calibration within one sample: on a nonempty sample list
with pairwise distinct entries, the fraction of samples at most the
`p * 100` percentile differs from `p` by at most `1 / n`. -/
theorem percentile_count_near (xs : List ℚ) (p : ℚ) (hne : xs ≠ [])
    (hp0 : 0 ≤ p) (hp1 : p ≤ 1) (hdist : xs.Pairwise (· ≠ ·)) :
    |((xs.countP (fun x => decide (x ≤ percentile xs (p * 100))) : ℚ)
        / (xs.length : ℚ) - p)| ≤ 1 / (xs.length : ℚ) := by
  have hperm := List.perm_insertionSort (· ≤ ·) xs
  have hlen := hperm.length_eq
  have hsorted := List.sorted_insertionSort (· ≤ ·) xs
  have hdist2 : (List.insertionSort (· ≤ ·) xs).Pairwise (· ≠ ·) := by
    rw [hperm.pairwise_iff (fun h => Ne.symm h)]
    exact hdist
  have hstrict : (List.insertionSort (· ≤ ·) xs).Sorted (· < ·) :=
    (hsorted.and hdist2).imp fun hab => lt_of_le_of_ne hab.1 hab.2
  have hn : 0 < xs.length := List.length_pos.mpr hne
  have hnq : (0 : ℚ) < (xs.length : ℚ) := by exact_mod_cast hn
  have hn1 : (1 : ℚ) ≤ (xs.length : ℚ) := by exact_mod_cast hn
  have hharg : ((xs.length : ℚ) - 1) * (p * 100) / 100 = ((xs.length : ℚ) - 1) * p := by
    field_simp
    ring
  have hh0 : 0 ≤ ((xs.length : ℚ) - 1) * p := by
    apply mul_nonneg (by linarith) hp0
  have hh1 : ((xs.length : ℚ) - 1) * p
      ≤ ((List.insertionSort (· ≤ ·) xs).length : ℚ) - 1 := by
    rw [hlen]
    nlinarith
  have hcount : xs.countP (fun x => decide (x ≤ percentile xs (p * 100)))
      = (Int.floor (((xs.length : ℚ) - 1) * p)).toNat + 1 := by
    rw [← hperm.countP_eq]
    unfold percentile
    rw [hharg]
    exact pcore_count _ _ hstrict hh0 hh1
  rw [hcount]
  have hfl0 : 0 ≤ Int.floor (((xs.length : ℚ) - 1) * p) := Int.floor_nonneg.mpr hh0
  have hiq : ((Int.floor (((xs.length : ℚ) - 1) * p)).toNat : ℚ)
      = (Int.floor (((xs.length : ℚ) - 1) * p) : ℚ) := by
    exact_mod_cast Int.toNat_of_nonneg hfl0
  have hil : ((Int.floor (((xs.length : ℚ) - 1) * p)).toNat : ℚ)
      ≤ ((xs.length : ℚ) - 1) * p := by
    rw [hiq]; exact Int.floor_le _
  have hiu : ((xs.length : ℚ) - 1) * p
      < ((Int.floor (((xs.length : ℚ) - 1) * p)).toNat : ℚ) + 1 := by
    rw [hiq]; exact Int.lt_floor_add_one _
  push_cast
  have key : (((Int.floor (((xs.length : ℚ) - 1) * p)).toNat : ℚ) + 1)
        / (xs.length : ℚ) - p
      = ((((Int.floor (((xs.length : ℚ) - 1) * p)).toNat : ℚ) + 1)
          - (xs.length : ℚ) * p) / (xs.length : ℚ) := by
    field_simp
  rw [key, abs_div, abs_of_pos hnq, div_le_div_iff_of_pos_right hnq,
    show (1 : ℚ) = |1| from (abs_one).symm]
  rw [abs_one]
  rw [abs_le]
  constructor
  · nlinarith
  · nlinarith

/-- Sorting commutes with subtracting a constant from every sample. -/
theorem insertionSort_map_sub (xs : List ℚ) (c : ℚ) :
    List.insertionSort (· ≤ ·) (xs.map fun v => v - c)
      = (List.insertionSort (· ≤ ·) xs).map fun v => v - c := by
  refine @List.eq_of_perm_of_sorted ℚ (· ≤ ·) _ _ _ ?_ ?_ ?_
  · exact (List.perm_insertionSort _ _).trans
      ((List.perm_insertionSort (· ≤ ·) xs).map _).symm
  · exact List.sorted_insertionSort _ _
  · exact List.pairwise_map.mpr
      ((List.sorted_insertionSort (· ≤ ·) xs).imp fun hab => by linarith)

/-- The percentile kernel commutes with subtracting a constant. -/
theorem pcore_map_sub (s : List ℚ) (h c : ℚ)
    (hh0 : 0 ≤ h) (hh1 : h ≤ (s.length : ℚ) - 1) :
    pcore (s.map fun v => v - c) h = pcore s h - c := by
  have hfl0 : 0 ≤ Int.floor h := Int.floor_nonneg.mpr hh0
  have hiq : ((Int.floor h).toNat : ℚ) = (Int.floor h : ℚ) := by
    exact_mod_cast Int.toNat_of_nonneg hfl0
  have hi_lt : (Int.floor h).toNat < s.length := by
    have hq : ((Int.floor h).toNat : ℚ) < (s.length : ℚ) := by
      rw [hiq]
      calc (Int.floor h : ℚ) ≤ h := Int.floor_le h
        _ ≤ (s.length : ℚ) - 1 := hh1
        _ < (s.length : ℚ) := by linarith
    exact_mod_cast hq
  have hmaplen : (s.map fun v => v - c).length = s.length := List.length_map _ _
  unfold pcore
  rw [List.getD_eq_getElem (s.map fun v => v - c) _ (by rw [hmaplen]; exact hi_lt),
    List.getElem_map, ← List.getD_eq_getElem s _ hi_lt]
  rcases lt_or_ge ((Int.floor h).toNat + 1) s.length with hlt | hge
  · rw [List.getD_eq_getElem (s.map fun v => v - c) _ (by rw [hmaplen]; exact hlt),
      List.getElem_map, ← List.getD_eq_getElem s _ hlt]
    ring
  · rw [List.getD_eq_default (s.map fun v => v - c) _ (by rw [hmaplen]; exact hge),
      List.getD_eq_default s _ hge]
    ring

/-- `np.percentile` is equivariant under subtracting a constant from every
sample (on a nonempty list with `0 ≤ q ≤ 100`). -/
theorem percentile_map_sub (xs : List ℚ) (q c : ℚ) (hne : xs ≠ [])
    (hq0 : 0 ≤ q) (hq1 : q ≤ 100) :
    percentile (xs.map fun v => v - c) q = percentile xs q - c := by
  have hn : 0 < xs.length := List.length_pos.mpr hne
  have hn1 : (1 : ℚ) ≤ (xs.length : ℚ) := by exact_mod_cast hn
  unfold percentile
  rw [List.length_map, insertionSort_map_sub]
  apply pcore_map_sub
  · apply div_nonneg (mul_nonneg (by linarith) hq0) (by norm_num)
  · rw [(List.perm_insertionSort (· ≤ ·) xs).length_eq]
    rw [div_le_iff₀ (by norm_num : (0:ℚ) < 100)]
    nlinarith

/-- The conclusion of claim C2: the returned sea level is the configured
percentile of the raw remapped samples; the fraction of raw samples at or
below it is within one sample (`1 / (width * height)`) of the configured
sea fraction; and the configured percentile of the stored (normalized)
elevation grid is exactly 0. -/
def sea_level_prop (pn : Noise) (width height : ℕ) (cfg : HeightConfig)
    (bx by2 : ℕ) : Prop :=
  (generate_height_map pn width height cfg bx by2).2
      = percentile (flat2 (raw_height_map pn width height cfg bx by2))
          (cfg.sea_percentage * 100)
  ∧ |(((flat2 (raw_height_map pn width height cfg bx by2)).countP
        (fun x => decide (x ≤ (generate_height_map pn width height cfg bx by2).2)) : ℚ)
        / ((width * height : ℕ) : ℚ) - cfg.sea_percentage)|
      ≤ 1 / ((width * height : ℕ) : ℚ)
  ∧ percentile (flat2 (generate_height_map pn width height cfg bx by2).1)
      (cfg.sea_percentage * 100) = 0

/-- **C2 (amended)**: for every nonempty elevation run whose raw samples
are pairwise distinct (the generic case for noise samples; ties can push
the at-or-below fraction past the one-sample tolerance), the sea level is
the configured percentile of the raw samples, the fraction of raw samples
at or below it is within one sample of the configured fraction, and the
configured percentile of the stored grid is exactly 0 after
subtraction. -/
theorem sea_level_calibration_amended (pn : Noise) (width height : ℕ)
    (cfg : HeightConfig) (bx by2 : ℕ)
    (hw : width ≠ 0) (hh : height ≠ 0)
    (hp0 : 0 ≤ cfg.sea_percentage) (hp1 : cfg.sea_percentage ≤ 1)
    (hdist : (flat2 (raw_height_map pn width height cfg bx by2)).Pairwise (· ≠ ·)) :
    sea_level_prop pn width height cfg bx by2 := by
  have hdims : gridDims (raw_height_map pn width height cfg bx by2) height width := by
    unfold raw_height_map
    exact gridDims_range_map _ height width (fun i hi => by simp)
  have hlen2 : (flat2 (raw_height_map pn width height cfg bx by2)).length
      = width * height := by
    rw [gridDims_flat2_len _ _ _ hdims, Nat.mul_comm]
  have hnz : flat2 (raw_height_map pn width height cfg bx by2) ≠ [] := by
    apply List.length_pos.mp
    rw [hlen2]
    exact Nat.mul_pos (Nat.pos_of_ne_zero hw) (Nat.pos_of_ne_zero hh)
  have hseadef : (generate_height_map pn width height cfg bx by2).2
      = percentile (flat2 (raw_height_map pn width height cfg bx by2))
          (cfg.sea_percentage * 100) := rfl
  refine ⟨hseadef, ?_, ?_⟩
  · have hnear := percentile_count_near _ cfg.sea_percentage hnz hp0 hp1 hdist
    rw [hlen2] at hnear
    rw [hseadef]
    exact hnear
  · have hsub : flat2 (generate_height_map pn width height cfg bx by2).1
        = (flat2 (raw_height_map pn width height cfg bx by2)).map
            (fun v => v - (generate_height_map pn width height cfg bx by2).2) := by
      show flat2 ((raw_height_map pn width height cfg bx by2).map fun row =>
          row.map fun v => v - (generate_height_map pn width height cfg bx by2).2) = _
      exact flat2_map _ _
    rw [hsub, percentile_map_sub _ _ _ hnz (by positivity) (by nlinarith), hseadef,
      sub_self]

/-- Height configuration for the concrete C2 runs: scale 1, octaves 1,
altitude range `[0, 2]`, sea fraction 0.4. -/
def cfgW : HeightConfig :=
  { scale := 1, octaves := 1, persistence := 1, lacunarity := 1,
    min_alt := 0, max_alt := 2, sea_percentage := 2/5 }

/-- Witness for the amended C2 on a 2×1 run of `pnEx` with distinct raw
samples `[1, 2]`. -/
theorem sea_level_calibration_instance :
    (2 : ℕ) ≠ 0 ∧ (1 : ℕ) ≠ 0
    ∧ (0 : ℚ) ≤ cfgW.sea_percentage ∧ cfgW.sea_percentage ≤ 1
    ∧ (flat2 (raw_height_map pnEx 2 1 cfgW 0 0)).Pairwise (· ≠ ·)
    ∧ sea_level_prop pnEx 2 1 cfgW 0 0 := by
  have hraw : flat2 (raw_height_map pnEx 2 1 cfgW 0 0) = [1, 2] := by
    norm_num [raw_height_map, flat2, cfgW, pnEx, List.range_succ]
  have hdist : (flat2 (raw_height_map pnEx 2 1 cfgW 0 0)).Pairwise (· ≠ ·) := by
    rw [hraw]
    norm_num [List.pairwise_cons]
  exact ⟨by norm_num, by norm_num, by norm_num [cfgW], by norm_num [cfgW], hdist,
    sea_level_calibration_amended pnEx 2 1 cfgW 0 0 (by norm_num) (by norm_num)
      (by norm_num [cfgW]) (by norm_num [cfgW]) hdist⟩

/-- Counterexample to C2 as stated: the 2×1 run with constant-zero noise
has tied raw samples `[1, 1]`; the sea level is 1, every sample is at or
below it, and `|1 - 0.4| = 0.6` exceeds the one-sample tolerance
`1/2`, so the calibration property fails on this nonempty run. -/
theorem sea_level_fraction_cex : ¬ sea_level_prop pn0 2 1 cfgW 0 0 := by
  rintro ⟨-, hb, -⟩
  have hraw : flat2 (raw_height_map pn0 2 1 cfgW 0 0) = [1, 1] := by
    norm_num [raw_height_map, flat2, cfgW, pn0, List.range_succ]
  have hsea : (generate_height_map pn0 2 1 cfgW 0 0).2 = 1 := by
    show percentile (flat2 (raw_height_map pn0 2 1 cfgW 0 0))
      (cfgW.sea_percentage * 100) = 1
    rw [hraw]
    unfold percentile pcore
    norm_num [List.insertionSort, List.orderedInsert, cfgW, Rat.floor_def,
      List.getD_cons_zero, List.getD_cons_succ]
  rw [hraw, hsea] at hb
  norm_num [List.countP_cons, cfgW] at hb
  rw [abs_of_nonneg (by norm_num : (0:ℚ) ≤ 3/5)] at hb
  norm_num at hb

end Ecosistema
